import Mathlib

/-!
Verification development for the map-reduce summarization service
(`summarizer_service.py`).

The shallow embedding models:
- Python exceptions as an explicit `PyErr` type together with the exact
  `except` clauses of the source (an uncaught exception propagates as
  `Except.error`);
- the generative-text backend as a function `String → Except PyErr String`
  (one call per prompt; `Except.error` models the call raising);
- Python strings as Lean `String` (a structure holding a `List Char`),
  `str.join` as `String.intercalate`, `str.strip()` as `pyStrip`,
  `str.split(sep)` as leftmost-match repeated splitting (`splitOnSep`);
- `list.sort(key=lambda x: x[0])` as a stable merge sort on the first
  component (`List.mergeSort idxLe`); `asyncio.gather` completion order is
  abstracted by quantifying over arbitrary permutations of the results;
- the JSON value read by `summarize_from_file` as the inductive `JValue`,
  with `dict.get`, iteration, and the try/except of the source modelled
  exception-kind by exception-kind.
-/

namespace Summarizer

/-- Kinds of Python exception relevant to the source, each carrying the text
that `str(e)` would produce. -/
inductive PyErr where
  | fileNotFound (msg : String)
  | jsonDecodeError (msg : String)
  | permissionError (msg : String)
  | unicodeDecodeError (msg : String)
  | attributeError (msg : String)
  | typeError (msg : String)
  | valueError (msg : String)
deriving DecidableEq, Repr

/-- The text interpolated by `f"...{e}"`, i.e. `str(e)`. -/
def pyErrStr : PyErr → String
  | PyErr.fileNotFound m => m
  | PyErr.jsonDecodeError m => m
  | PyErr.permissionError m => m
  | PyErr.unicodeDecodeError m => m
  | PyErr.attributeError m => m
  | PyErr.typeError m => m
  | PyErr.valueError m => m

/-- The fixed separator joined between the chunks of one batch
(`"\n\n--- (New Chunk in Batch) ---\n\n".join(batch)` in `group_chunks`). -/
def chunkSep : String := "\n\n--- (New Chunk in Batch) ---\n\n"

/-- `chunkSep` as its character list. -/
def chunkSepL : List Char := chunkSep.data

/-- The slices `chunks_content[i:i+batch_size]` for `i in range(0, len, batch_size)`
with a positive step: each group is the next `b` elements (`take b = x :: take (b-1) xs`
on a nonempty list). Only called with `0 < b`. -/
def sliceGroups (b : Nat) : List String → List (List String)
  | [] => []
  | x :: xs => (x :: List.take (b - 1) xs) :: sliceGroups b (List.drop (b - 1) xs)
termination_by l => l.length
decreasing_by simp [List.length_drop]; omega

/-- `group_chunks(chunks_content, batch_size)`.  Per Python `range(0, n, step)`
semantics: a zero step raises `ValueError`; a negative step yields an empty
range (so an empty result, since `n = len(chunks_content) ≥ 0`); a positive
step produces the consecutive slices, each joined with `chunkSep`. -/
def group_chunks (chunks_content : List String) (batch_size : Int) : Except PyErr (List String) :=
  if batch_size = 0 then Except.error (PyErr.valueError "range() arg 3 must not be zero")
  else if batch_size < 0 then Except.ok []
  else Except.ok ((sliceGroups batch_size.toNat chunks_content).map (String.intercalate chunkSep))

/-- Python truthiness of the optional `query` argument (`if query:`):
`None` and the empty string are falsy. -/
def isTruthy : Option String → Bool
  | none => false
  | some s => !(s == "")

/-- Python `str.strip()`: remove leading and trailing whitespace. -/
def pyStrip (s : String) : String :=
  String.mk (((s.data.dropWhile Char.isWhitespace).reverse.dropWhile Char.isWhitespace).reverse)

/-- Fixed text of the query-mode map prompt up to the interpolated query. -/
def mapQueryHeader : String := "\n            This is a batch of content from a larger document. Summarize this specific batch while paying close attention \n            to any information that could help answer the following user question. \n            Extract all relevant details related to the question.\n            IMPORTANT: The summary characters with spaces for this batch must not exceed 5000 characters.\n            USER\x27S QUESTION: \x22"

/-- Fixed text of the general-mode map prompt up to the interpolated batch content. -/
def mapGeneralHeader : String := "\n            This is a batch of content from a larger document. Summarize the key points from this batch concisely. \n            Focus on the main requirements, specifications, or objectives mentioned.\n            IMPORTANT: The summary characters with spaces for this batch must not exceed 5000 characters.\n            --- CONTENT ---\n            "

/-- The query-mode map prompt (the f-string in the `if query:` branch of
`summarize_batch_async`). -/
def mapPromptQuery (query batch_content : String) : String :=
  mapQueryHeader ++ query ++ "\x22\n\n            --- CONTENT OF THIS BATCH ---\n            " ++ batch_content ++ "\n            --- QUERY-FOCUSED SUMMARY OF THIS BATCH ---\n            "

/-- The general-mode map prompt (the f-string in the `else` branch of
`summarize_batch_async`). -/
def mapPromptGeneral (batch_content : String) : String :=
  mapGeneralHeader ++ batch_content ++ "\n            --- GENERAL SUMMARY ---\n            "

/-- The prompt built by `summarize_batch_async` for a batch, by query truthiness. -/
def map_prompt (batch_content : String) (query : Option String) : String :=
  if isTruthy query then mapPromptQuery (query.getD "") batch_content
  else mapPromptGeneral batch_content

/-- `summarize_batch_async(batch_content, index, query)`: builds the prompt,
calls the backend, and returns `(index, response.text.strip())`; any raised
failure is absorbed into `(index, "[Failed to summarize batch <index>]")`. -/
def summarize_batch_async (generate : String → Except PyErr String)
    (batch_content : String) (index : Nat) (query : Option String) : Nat × String :=
  match generate (map_prompt batch_content query) with
  | Except.ok text => (index, pyStrip text)
  | Except.error _ => (index, "[Failed to summarize batch " ++ toString index ++ "]")

/-- Comparison used by `map_results.sort(key=lambda x: x[0])`. -/
def idxLe (a b : Nat × String) : Bool := decide (a.1 ≤ b.1)

/-- The reordering step of the map phase: sort the gathered `(index, summary)`
results by index ascending and extract the summary texts. -/
def mapPhase (map_results : List (Nat × String)) : List String :=
  (map_results.mergeSort idxLe).map Prod.snd

/-- Fixed text of the query-mode reduce prompt up to the interpolated query. -/
def reduceQueryHeader : String := "\n        Based on the following query-focused summaries, synthesize them into a single, coherent, and complete answer to the user\x27s question.\n        IMPORTANT: The summary characters with spaces for this batch must not exceed 5000 characters.\n        USER\x27S QUESTION: \x22"

/-- Fixed text of the general-mode reduce prompt up to the interpolated summaries. -/
def reduceGeneralHeader : String := "\n        From the following general summaries, compile a comprehensive and easy-to-understand executive summary.\n        Cover key points like Project Overview, Objectives, Scope, Qualifications, Budget, and Timeline.\n        Complete answer with markdown format and easy to read with bullet points.\n        IMPORTANT: The summary characters with spaces for this batch must not exceed 5000 characters.\n\n        --- GENERAL SUMMARIES ---\n        "

/-- The query-mode reduce prompt. -/
def reducePromptQuery (query combined_summaries : String) : String :=
  reduceQueryHeader ++ query ++ "\x22\n\n        --- QUERY-FOCUSED SUMMARIES ---\n        " ++ combined_summaries ++ "\n        --- FINAL DETAILED ANSWER ---\n        "

/-- The general-mode reduce prompt. -/
def reducePromptGeneral (combined_summaries : String) : String :=
  reduceGeneralHeader ++ combined_summaries ++ "\n        --- FINAL EXECUTIVE SUMMARY ---\n        "

/-- The prompt built for the reduce phase, by query truthiness. -/
def reduce_prompt (combined_summaries : String) (query : Option String) : String :=
  if isTruthy query then reducePromptQuery (query.getD "") combined_summaries
  else reducePromptGeneral combined_summaries

/-- `summarize_from_content_chunks(chunks_content, query)`: batch with
`group_chunks(chunks_content, batch_size=7)`, run one map worker per batch at
index `i+1`, sort the gathered results by index and extract the summaries, join
them with `"\n\n---\n\n"`, then make the single reduce call; a reduce failure
is returned as the string `"An error occurred during the Reduce phase: <e>"`. -/
def summarize_from_content_chunks (mapGen reduceGen : String → Except PyErr String)
    (chunks_content : List String) (query : Option String) : Except PyErr String :=
  match group_chunks chunks_content 7 with
  | Except.error e => Except.error e
  | Except.ok batched_chunks =>
    let map_results := batched_chunks.enum.map
      (fun p => summarize_batch_async mapGen p.2 (p.1 + 1) query)
    let individual_summaries := mapPhase map_results
    let combined_summaries := String.intercalate "\n\n---\n\n" individual_summaries
    match reduceGen (reduce_prompt combined_summaries query) with
    | Except.ok t => Except.ok (pyStrip t)
    | Except.error e =>
        Except.ok ("An error occurred during the Reduce phase: " ++ pyErrStr e)

/-- The task-ordered `(index, summary)` results of the map phase of
`summarize_from_content_chunks` (batch `i` of the `batch_size = 7` batching runs
at index `i + 1`). -/
def map_results_of (mapGen : String → Except PyErr String)
    (chunks : List String) (query : Option String) : List (Nat × String) :=
  ((sliceGroups 7 chunks).map (String.intercalate chunkSep)).enum.map
    (fun p => summarize_batch_async mapGen p.2 (p.1 + 1) query)

/-- The per-batch summaries in original batch order. -/
def individual_summaries_of (mapGen : String → Except PyErr String)
    (chunks : List String) (query : Option String) : List String :=
  (map_results_of mapGen chunks query).map Prod.snd

/-- The combined-summaries block handed to the reduce prompt. -/
def combined_of (mapGen : String → Except PyErr String)
    (chunks : List String) (query : Option String) : String :=
  String.intercalate "\n\n---\n\n" (mapPhase (map_results_of mapGen chunks query))

/-! ### Facts about the batching loop -/

theorem sliceGroups_nil (b : Nat) : sliceGroups b [] = [] := by
  rw [sliceGroups]

theorem sliceGroups_cons (b : Nat) (x : String) (xs : List String) :
    sliceGroups b (x :: xs)
      = (x :: List.take (b - 1) xs) :: sliceGroups b (List.drop (b - 1) xs) := by
  rw [sliceGroups]

theorem length_sliceGroups (b : Nat) (hb : 0 < b) :
    ∀ l : List String, (sliceGroups b l).length = (l.length + b - 1) / b
  | [] => by
      rw [sliceGroups_nil]
      simp only [List.length_nil]
      exact (Nat.div_eq_of_lt (by omega)).symm
  | x :: xs => by
      rw [sliceGroups_cons]
      have ih := length_sliceGroups b hb (List.drop (b - 1) xs)
      simp only [List.length_cons, List.length_drop] at ih ⊢
      rw [ih]
      have h1 : xs.length + 1 + b - 1 = xs.length + b := by omega
      rw [h1, Nat.add_div_right _ hb]
      rcases le_or_lt xs.length (b - 1) with hle | hlt
      · have e1 : xs.length - (b - 1) + b - 1 = b - 1 := by omega
        rw [e1, Nat.div_eq_of_lt (by omega), Nat.div_eq_of_lt (by omega)]
      · have e1 : xs.length - (b - 1) + b - 1 = xs.length := by omega
        rw [e1]
termination_by l => l.length
decreasing_by simp [List.length_drop]; omega

theorem flatten_sliceGroups (b : Nat) :
    ∀ l : List String, (sliceGroups b l).flatten = l
  | [] => by rw [sliceGroups_nil]; rfl
  | x :: xs => by
      rw [sliceGroups_cons]
      simp only [List.flatten_cons, List.cons_append]
      rw [flatten_sliceGroups b (List.drop (b - 1) xs), List.take_append_drop]
termination_by l => l.length
decreasing_by simp [List.length_drop]; omega

theorem sliceGroups_sizes (b : Nat) (hb : 0 < b) :
    ∀ l : List String, ∀ g ∈ sliceGroups b l, 1 ≤ g.length ∧ g.length ≤ b
  | [] => by rw [sliceGroups_nil]; intro g hg; cases hg
  | x :: xs => by
      rw [sliceGroups_cons]
      intro g hg
      rcases List.mem_cons.mp hg with rfl | hg
      · simp only [List.length_cons, List.length_take]
        omega
      · exact sliceGroups_sizes b hb (List.drop (b - 1) xs) g hg
termination_by l => l.length
decreasing_by simp [List.length_drop]; omega

theorem sliceGroups_ne_nil (b : Nat) (x : String) (xs : List String) :
    sliceGroups b (x :: xs) ≠ [] := by
  rw [sliceGroups_cons]; intro h; cases h

theorem sliceGroups_dropLast_sizes (b : Nat) (hb : 0 < b) :
    ∀ l : List String, ∀ g ∈ (sliceGroups b l).dropLast, g.length = b
  | [] => by rw [sliceGroups_nil]; intro g hg; cases hg
  | x :: xs => by
      rw [sliceGroups_cons]
      by_cases hd : List.drop (b - 1) xs = []
      · rw [hd, sliceGroups_nil]
        intro g hg; simp at hg
      · have hne : sliceGroups b (List.drop (b - 1) xs) ≠ [] := by
          cases hdd : List.drop (b - 1) xs with
          | nil => exact absurd hdd hd
          | cons y ys => exact sliceGroups_ne_nil b y ys
        rw [List.dropLast_cons_of_ne_nil hne]
        intro g hg
        rcases List.mem_cons.mp hg with rfl | hg2
        · have hxl2 : b - 1 ≤ xs.length := by
            by_contra hcon
            exact hd (List.drop_eq_nil_of_le (by omega))
          simp only [List.length_cons, List.length_take]
          omega
        · exact sliceGroups_dropLast_sizes b hb (List.drop (b - 1) xs) g hg2
termination_by l => l.length
decreasing_by simp [List.length_drop]; omega

/-- C3 counterexample: with a negative `batch_size` and a nonempty chunk list,
`group_chunks` raises nothing at all — it silently returns an empty batch list
(Python `range(0, 1, -1)` is empty), so the claim that `batch_size <= 0` always
fails with an invalid-argument error is false at `batch_size = -1`. -/
theorem group_chunks_negative_no_error :
    group_chunks ["a"] (-1) = Except.ok [] ∧
    ∀ e, group_chunks ["a"] (-1) ≠ Except.error e := by
  constructor
  · rfl
  · intro e h
    rw [show group_chunks ["a"] (-1) = Except.ok [] from rfl] at h
    cases h

/-- C3 (amended): `group_chunks` fails — with Python's `ValueError` from
`range` — exactly when `batch_size = 0`; for a negative `batch_size` it
returns an empty batch list without error, for every input chunk list. -/
theorem group_chunks_nonpositive (chunks : List String) (b : Int) :
    group_chunks chunks 0
        = Except.error (PyErr.valueError "range() arg 3 must not be zero") ∧
    (b < 0 → group_chunks chunks b = Except.ok []) := by
  constructor
  · rw [group_chunks]; simp
  · intro hb
    rw [group_chunks, if_neg (by omega), if_pos hb]

/-- C3 witness: the amended theorem evaluated at `chunks = ["x"]`, `b = -2`. -/
theorem group_chunks_nonpositive_witness :
    group_chunks ["x"] (-2) = Except.ok [] :=
  (group_chunks_nonpositive ["x"] (-2)).2 (by decide)

/-- C4: for every chunk list and every `batch_size > 0`, `group_chunks`
succeeds and returns exactly `⌈len(chunks) / batch_size⌉` batches (computed as
`(n + b - 1) / b` in natural division, which is `0` for an empty input); an
empty input yields an empty batch list with no error, and a nonempty input
yields at least one batch. -/
theorem group_chunks_batch_count (chunks : List String) (b : Int) (hb : 0 < b) :
    ∃ batches : List String,
      group_chunks chunks b = Except.ok batches ∧
      batches.length = (chunks.length + b.toNat - 1) / b.toNat ∧
      (chunks = [] → batches = []) ∧
      (chunks ≠ [] → batches ≠ []) := by
  refine ⟨(sliceGroups b.toNat chunks).map (String.intercalate chunkSep), ?_, ?_, ?_, ?_⟩
  · rw [group_chunks, if_neg (by omega), if_neg (by omega)]
  · rw [List.length_map, length_sliceGroups b.toNat (by omega) chunks]
  · rintro rfl
    rw [sliceGroups_nil]; rfl
  · intro h
    cases chunks with
    | nil => exact absurd rfl h
    | cons x xs =>
        rw [sliceGroups_cons]
        intro hcon; cases hcon

/-- C4 witness: `group_chunks ["a", "b", "c"] 2` yields `⌈3/2⌉ = 2` batches. -/
theorem group_chunks_batch_count_witness :
    ∃ batches : List String,
      group_chunks ["a", "b", "c"] 2 = Except.ok batches ∧
      batches.length = (3 + 2 - 1) / 2 ∧
      (["a", "b", "c"] = ([] : List String) → batches = []) ∧
      (["a", "b", "c"] ≠ ([] : List String) → batches ≠ []) :=
  group_chunks_batch_count ["a", "b", "c"] 2 (by decide)

/-! ### Map-worker failure containment, reduce failure, query truthiness -/

/-- C2: whenever the backend call made inside `summarize_batch_async` fails
(whatever the failure), the function does not propagate the failure: it
returns `(index, "[Failed to summarize batch <index>]")` with the index it was
given; and the sort-and-extract step of the map phase always preserves the
length of the result sequence, so the reduce phase receives a full-length
sequence. -/
theorem summarize_batch_failure (generate : String → Except PyErr String)
    (batch_content : String) (index : Nat) (query : Option String) (e : PyErr)
    (h : generate (map_prompt batch_content query) = Except.error e) :
    summarize_batch_async generate batch_content index query
        = (index, "[Failed to summarize batch " ++ toString index ++ "]") ∧
    ∀ results : List (Nat × String), (mapPhase results).length = results.length := by
  constructor
  · unfold summarize_batch_async
    rw [h]
  · intro results
    unfold mapPhase
    rw [List.length_map, List.length_mergeSort]

/-- C2 witness: a backend that always raises, at batch index 2. -/
theorem summarize_batch_failure_witness :
    summarize_batch_async (fun _ => Except.error (PyErr.valueError "netfail")) "body" 2 none
        = (2, "[Failed to summarize batch " ++ toString 2 ++ "]") ∧
    ∀ results : List (Nat × String), (mapPhase results).length = results.length :=
  summarize_batch_failure (fun _ => Except.error (PyErr.valueError "netfail")) "body" 2 none
    (PyErr.valueError "netfail") rfl

theorem summarize_eq_reduce_step (mg rg : String → Except PyErr String)
    (chunks : List String) (q : Option String) :
    summarize_from_content_chunks mg rg chunks q =
      match rg (reduce_prompt (combined_of mg chunks q) q) with
      | Except.ok t => Except.ok (pyStrip t)
      | Except.error e =>
          Except.ok ("An error occurred during the Reduce phase: " ++ pyErrStr e) := rfl

/-- C6: if the single reduce-phase backend call fails,
`summarize_from_content_chunks` does not raise: it returns, as its entire
value, the string `"An error occurred during the Reduce phase: "` followed by
the underlying error detail, and no backend summary text. -/
theorem reduce_failure_returns_error_string (mg rg : String → Except PyErr String)
    (chunks : List String) (q : Option String) (e : PyErr)
    (h : rg (reduce_prompt (combined_of mg chunks q) q) = Except.error e) :
    summarize_from_content_chunks mg rg chunks q
      = Except.ok ("An error occurred during the Reduce phase: " ++ pyErrStr e) := by
  rw [summarize_eq_reduce_step, h]

/-- C6 witness: a reduce backend that raises `ValueError("boom")`. -/
theorem reduce_failure_witness :
    summarize_from_content_chunks (fun _ => Except.ok "m")
        (fun _ => Except.error (PyErr.valueError "boom")) ["c"] none
      = Except.ok ("An error occurred during the Reduce phase: "
          ++ pyErrStr (PyErr.valueError "boom")) :=
  reduce_failure_returns_error_string (fun _ => Except.ok "m")
    (fun _ => Except.error (PyErr.valueError "boom")) ["c"] none
    (PyErr.valueError "boom") rfl

/-- C9: an empty-string query is treated exactly like an absent query, because
mode selection tests Python truthiness (`if query:`), not presence: the map
prompt, the reduce prompt, a map worker's result, and the whole orchestration
are identical for `query = some ""` and `query = none`. -/
theorem empty_query_behaves_as_none (batch combined : String) (index : Nat)
    (generate mg rg : String → Except PyErr String) (chunks : List String) :
    map_prompt batch (some "") = map_prompt batch none ∧
    reduce_prompt combined (some "") = reduce_prompt combined none ∧
    summarize_batch_async generate batch index (some "")
        = summarize_batch_async generate batch index none ∧
    summarize_from_content_chunks mg rg chunks (some "")
        = summarize_from_content_chunks mg rg chunks none :=
  ⟨rfl, rfl, rfl, rfl⟩

/-- C10: on an empty chunk list `summarize_from_content_chunks` does not
short-circuit: batching yields zero batches (and zero map workers), yet the
reduce call is still made, with an empty combined-summaries block in its
prompt, and the function returns that call's stripped response (or the
reduce-failure string); the result does not depend on the map backend at all. -/
theorem empty_chunks_still_reduce (mg mg2 rg : String → Except PyErr String)
    (q : Option String) :
    group_chunks [] 7 = Except.ok [] ∧
    summarize_from_content_chunks mg rg [] q =
      (match rg (reduce_prompt "" q) with
       | Except.ok t => Except.ok (pyStrip t)
       | Except.error e =>
           Except.ok ("An error occurred during the Reduce phase: " ++ pyErrStr e)) ∧
    summarize_from_content_chunks mg rg [] q
        = summarize_from_content_chunks mg2 rg [] q := by
  refine ⟨?_, ?_, ?_⟩
  · rw [group_chunks]
    simp [sliceGroups_nil]
  · rw [summarize_eq_reduce_step]
    unfold combined_of map_results_of mapPhase
    rw [sliceGroups_nil]
    simp only [List.map_nil, List.enum_nil, List.mergeSort_nil]
    rfl
  · rw [summarize_eq_reduce_step, summarize_eq_reduce_step]
    unfold combined_of map_results_of mapPhase
    rw [sliceGroups_nil]
    simp only [List.map_nil, List.enum_nil, List.mergeSort_nil]

/-! ### Query presence toggles the prompt templates -/

set_option maxRecDepth 8000 in
/-- C8: prompt construction is deterministic in the query: with any truthy
query the map prompt and the reduce prompt each differ from their
general-mode (query-absent) counterparts, for every batch content and every
combined-summaries block — the two templates of each stage differ already in
their fixed leading text. -/
theorem query_toggles_prompt_modes (q batch combined : String) (hq : q ≠ "") :
    map_prompt batch (some q) ≠ map_prompt batch none ∧
    reduce_prompt combined (some q) ≠ reduce_prompt combined none := by
  have hqb : (q == "") = false := by
    simpa using hq
  constructor
  · intro heq
    have hd := congrArg String.data heq
    simp [map_prompt, isTruthy, hqb, mapPromptQuery, mapPromptGeneral,
      String.data_append, List.append_assoc] at hd
    have ht := congrArg (List.take 100) hd
    rw [List.take_append_of_le_length (by decide),
      List.take_append_of_le_length (by decide)] at ht
    exact absurd ht (by decide)
  · intro heq
    have hd := congrArg String.data heq
    simp [reduce_prompt, isTruthy, hqb, reducePromptQuery, reducePromptGeneral,
      String.data_append, List.append_assoc] at hd
    have ht := congrArg (List.take 30) hd
    rw [List.take_append_of_le_length (by decide),
      List.take_append_of_le_length (by decide)] at ht
    exact absurd ht (by decide)

/-- C8 witness: the query `"X"` flips both prompt modes. -/
theorem query_toggles_prompt_modes_witness :
    map_prompt "" (some "X") ≠ map_prompt "" none ∧
    reduce_prompt "" (some "X") ≠ reduce_prompt "" none :=
  query_toggles_prompt_modes "X" "" "" (by decide)

/-! ### Order restoration of the map phase -/

theorem summarize_batch_async_fst (g : String → Except PyErr String)
    (b : String) (i : Nat) (q : Option String) :
    (summarize_batch_async g b i q).1 = i := by
  unfold summarize_batch_async
  cases g (map_prompt b q) <;> rfl

theorem map_results_enumFrom (mg : String → Except PyErr String) (q : Option String) :
    ∀ (l : List String) (n : Nat),
      (List.enumFrom n l).map (fun p => summarize_batch_async mg p.2 (p.1 + 1) q)
        = List.enumFrom (n + 1)
            (((List.enumFrom n l).map
                (fun p => summarize_batch_async mg p.2 (p.1 + 1) q)).map Prod.snd)
  | [], _ => rfl
  | x :: xs, n => by
      simp only [List.enumFrom, List.map_cons]
      congr 1
      · exact Prod.ext (summarize_batch_async_fst mg x (n + 1) q) rfl
      · exact map_results_enumFrom mg q xs (n + 1)

/-- C1: the map phase restores original batch order regardless of completion
order.  First conjunct: for every summary list, any arrival permutation of the
indexed results `(1, s₁), …, (N, sₙ)` is sorted by index back to `s₁, …, sₙ`,
so the Nth batch's summary occupies position N.  Second conjunct: the actual
map results of `summarize_from_content_chunks` are exactly the summaries
indexed from 1 in batch order.  Third conjunct: hence any completion order of
those results yields the batch-ordered summaries after the sort-and-extract
step. -/
theorem mapPhase_restores_order (mg : String → Except PyErr String)
    (chunks : List String) (q : Option String)
    (summaries : List String) (arrival : List (Nat × String)) :
    (arrival.Perm (List.enumFrom 1 summaries) → mapPhase arrival = summaries) ∧
    map_results_of mg chunks q
        = List.enumFrom 1 (individual_summaries_of mg chunks q) ∧
    (arrival.Perm (map_results_of mg chunks q) →
        mapPhase arrival = individual_summaries_of mg chunks q) := by
  have main : ∀ (ss : List String) (arr : List (Nat × String)),
      arr.Perm (List.enumFrom 1 ss) → mapPhase arr = ss := by
    intro ss arr h
    unfold mapPhase
    have hperm : (arr.mergeSort idxLe).Perm (List.enumFrom 1 ss) :=
      (List.mergeSort_perm arr idxLe).trans h
    have htrans : ∀ a b c : Nat × String,
        idxLe a b = true → idxLe b c = true → idxLe a c = true := by
      intro a b c h1 h2
      simp only [idxLe, decide_eq_true_eq] at h1 h2 ⊢
      omega
    have htotal : ∀ a b : Nat × String, (idxLe a b || idxLe b a) = true := by
      intro a b
      simp only [idxLe, Bool.or_eq_true, decide_eq_true_eq]
      omega
    have hsorted : List.Pairwise (fun a b : Nat × String => a.1 ≤ b.1)
        (arr.mergeSort idxLe) := by
      have hs := List.sorted_mergeSort htrans htotal arr
      exact hs.imp (fun hab => by simpa [idxLe] using hab)
    have hnodupkeys : ((arr.mergeSort idxLe).map Prod.fst).Nodup := by
      have hp : ((arr.mergeSort idxLe).map Prod.fst).Perm
          ((List.enumFrom 1 ss).map Prod.fst) := hperm.map Prod.fst
      rw [List.enumFrom_map_fst] at hp
      exact hp.nodup_iff.mpr (List.nodup_range' 1 ss.length)
    have hne : List.Pairwise (fun a b : Nat × String => a.1 ≠ b.1)
        (arr.mergeSort idxLe) := List.pairwise_map.mp hnodupkeys
    have hlt : List.Pairwise (fun a b : Nat × String => a.1 < b.1)
        (arr.mergeSort idxLe) :=
      (hsorted.and hne).imp (fun hab => lt_of_le_of_ne hab.1 hab.2)
    have hlt2 : List.Pairwise (fun a b : Nat × String => a.1 < b.1)
        (List.enumFrom 1 ss) := by
      refine List.pairwise_map (f := Prod.fst) |>.mp ?_
      rw [List.enumFrom_map_fst]
      exact List.pairwise_lt_range' 1 ss.length
    haveI : IsAntisymm (Nat × String) (fun a b => a.1 < b.1) :=
      ⟨fun a b h1 h2 => absurd (Nat.lt_trans h1 h2) (Nat.lt_irrefl _)⟩
    have heq : arr.mergeSort idxLe = List.enumFrom 1 ss :=
      List.eq_of_perm_of_sorted hperm hlt hlt2
    rw [heq, List.enumFrom_map_snd]
  have h2 : map_results_of mg chunks q
      = List.enumFrom 1 (individual_summaries_of mg chunks q) := by
    unfold individual_summaries_of map_results_of
    rw [List.enum_eq_enumFrom]
    exact map_results_enumFrom mg q _ 0
  refine ⟨main summaries arrival, h2, ?_⟩
  intro hp
  exact main _ arrival (h2 ▸ hp)

unseal sliceGroups in
/-- C1 witness: one batch, one worker, the arrival list is the (sole)
permutation of the indexed results; the sort-and-extract step returns the
batch-ordered summaries. -/
theorem mapPhase_restores_order_witness :
    mapPhase [(1, "s")] = ["s"] ∧
    map_results_of (fun _ => Except.ok "s") ["c"] none
        = List.enumFrom 1 (individual_summaries_of (fun _ => Except.ok "s") ["c"] none) ∧
    mapPhase [(1, "s")]
        = individual_summaries_of (fun _ => Except.ok "s") ["c"] none := by
  have T := mapPhase_restores_order (fun _ => Except.ok "s") ["c"] none ["s"] [(1, "s")]
  exact ⟨T.1 (by decide), T.2.1, T.2.2 (by decide)⟩

/-! ### File-based entry point -/

/-- A parsed JSON value, as produced by `json.load`. -/
inductive JValue where
  | null
  | bool (b : Bool)
  | num (n : Int)
  | str (s : String)
  | arr (items : List JValue)
  | obj (fields : List (String × JValue))

/-- Python `value.get(key, default)`: defined on dicts, raises
`AttributeError` on every other value. -/
def pyDictGet (v : JValue) (key : String) (dflt : JValue) : Except PyErr JValue :=
  match v with
  | JValue.obj fields => Except.ok ((fields.lookup key).getD dflt)
  | _ => Except.error (PyErr.attributeError "object has no attribute get")

/-- Python iteration (`for item in v`): lists yield their items, strings yield
their characters as one-character strings, dicts yield their keys, everything
else raises `TypeError`. -/
def pyIter : JValue → Except PyErr (List JValue)
  | JValue.arr items => Except.ok items
  | JValue.str s => Except.ok (s.data.map (fun c => JValue.str (String.mk [c])))
  | JValue.obj fields => Except.ok (fields.map (fun kv => JValue.str kv.1))
  | _ => Except.error (PyErr.typeError "object is not iterable")

/-- `[item.get('content', '') for item in data.get('data', [])]`. -/
def extract_chunks (data : JValue) : Except PyErr (List JValue) := do
  let dataField ← pyDictGet data "data" (JValue.arr [])
  let items ← pyIter dataField
  items.mapM (fun item => pyDictGet item "content" (JValue.str ""))

/-- The exception kinds named in the `except (FileNotFoundError,
json.JSONDecodeError)` clause of `summarize_from_file`; every other exception
is uncaught there. -/
def caughtByHandler : PyErr → Bool
  | PyErr.fileNotFound _ => true
  | PyErr.jsonDecodeError _ => true
  | _ => false

/-- The early-return message for an empty extracted chunk list. -/
def noContentMsg : String := "No \x27content\x27 data found in the file."

/-- A chunk value must be a string by the time the batch join runs;
`str.join` raises `TypeError` on a non-string item.  The model surfaces that
(uncaught) exception at conversion time. -/
def jstrOrTypeErr : JValue → Except PyErr String
  | JValue.str s => Except.ok s
  | _ => Except.error (PyErr.typeError "sequence item: expected str instance")

/-- The reading-plus-extraction part of the try block of
`summarize_from_file`: the `open` + `json.load` step, modelled by its outcome
`readFile : Except PyErr JValue` (the parsed value, or the exception the step
raises), followed by the chunk-content extraction. -/
def read_and_extract (readFile : Except PyErr JValue) : Except PyErr (List JValue) := do
  let data ← readFile
  extract_chunks data

/-- `summarize_from_file(file_path, query)`.  The try block covers reading,
extraction and the emptiness check; only `FileNotFoundError` and
`json.JSONDecodeError` are caught and turned into the
`"Error reading or parsing the file: <e>"` return value — any other exception
propagates. -/
def summarize_from_file (readFile : Except PyErr JValue)
    (mapGen reduceGen : String → Except PyErr String)
    (query : Option String) : Except PyErr String :=
  match read_and_extract readFile with
  | Except.error e =>
      if caughtByHandler e then
        Except.ok ("Error reading or parsing the file: " ++ pyErrStr e)
      else Except.error e
  | Except.ok chunk_vals =>
      if chunk_vals.isEmpty then Except.ok noContentMsg
      else
        match chunk_vals.mapM jstrOrTypeErr with
        | Except.error e => Except.error e
        | Except.ok chunks_content =>
            summarize_from_content_chunks mapGen reduceGen chunks_content query

/-- C7 counterexample: an unreadable file (`PermissionError`) is not in the
`except` clause, so `summarize_from_file` propagates the exception instead of
returning a descriptive error string — the claim fails for the "unreadable"
case. -/
theorem summarize_from_file_unreadable_raises :
    summarize_from_file (Except.error (PyErr.permissionError "Permission denied"))
        (fun _ => Except.ok "S") (fun _ => Except.ok "S") none
      = Except.error (PyErr.permissionError "Permission denied") := rfl

/-- C7 (amended): `summarize_from_file` returns a descriptive error string —
rather than raising — when the file is missing (`FileNotFoundError`), when it
is not valid JSON (`json.JSONDecodeError`), or when it yields zero extractable
chunk contents; in each of these cases the result is independent of both
backends, i.e. it returns before any map or reduce call is made.  (Other
failures, such as an unreadable file, propagate as exceptions.) -/
theorem summarize_from_file_graceful
    (mg rg mg2 rg2 : String → Except PyErr String) (q : Option String)
    (e : PyErr) (he : caughtByHandler e = true)
    (data : JValue) (hd : extract_chunks data = Except.ok []) :
    summarize_from_file (Except.error e) mg rg q
        = Except.ok ("Error reading or parsing the file: " ++ pyErrStr e) ∧
    summarize_from_file (Except.ok data) mg rg q = Except.ok noContentMsg ∧
    summarize_from_file (Except.error e) mg rg q
        = summarize_from_file (Except.error e) mg2 rg2 q ∧
    summarize_from_file (Except.ok data) mg rg q
        = summarize_from_file (Except.ok data) mg2 rg2 q := by
  have hre1 : read_and_extract (Except.error e) = Except.error e := rfl
  have hre2 : read_and_extract (Except.ok data) = Except.ok ([] : List JValue) := by
    rw [show read_and_extract (Except.ok data) = extract_chunks data from rfl, hd]
  have h1 : ∀ (a b : String → Except PyErr String),
      summarize_from_file (Except.error e) a b q
        = Except.ok ("Error reading or parsing the file: " ++ pyErrStr e) := by
    intro a b
    unfold summarize_from_file
    rw [hre1]
    simp [he]
  have h2 : ∀ (a b : String → Except PyErr String),
      summarize_from_file (Except.ok data) a b q = Except.ok noContentMsg := by
    intro a b
    unfold summarize_from_file
    rw [hre2]
    rfl
  exact ⟨h1 mg rg, h2 mg rg, (h1 mg rg).trans (h1 mg2 rg2).symm,
    (h2 mg rg).trans (h2 mg2 rg2).symm⟩

/-- C7 witness: a missing file, and a parsed file whose `data` list is empty. -/
theorem summarize_from_file_graceful_witness :
    summarize_from_file (Except.error (PyErr.fileNotFound "No such file or directory"))
        (fun _ => Except.ok "S") (fun _ => Except.ok "S") none
        = Except.ok ("Error reading or parsing the file: "
            ++ pyErrStr (PyErr.fileNotFound "No such file or directory")) ∧
    summarize_from_file (Except.ok (JValue.obj [("data", JValue.arr [])]))
        (fun _ => Except.ok "S") (fun _ => Except.ok "S") none
        = Except.ok noContentMsg ∧
    summarize_from_file (Except.error (PyErr.fileNotFound "No such file or directory"))
        (fun _ => Except.ok "S") (fun _ => Except.ok "S") none
        = summarize_from_file (Except.error (PyErr.fileNotFound "No such file or directory"))
            (fun _ => Except.ok "T") (fun _ => Except.error (PyErr.valueError "x")) none ∧
    summarize_from_file (Except.ok (JValue.obj [("data", JValue.arr [])]))
        (fun _ => Except.ok "S") (fun _ => Except.ok "S") none
        = summarize_from_file (Except.ok (JValue.obj [("data", JValue.arr [])]))
            (fun _ => Except.ok "T") (fun _ => Except.error (PyErr.valueError "x")) none :=
  summarize_from_file_graceful (fun _ => Except.ok "S") (fun _ => Except.ok "S")
    (fun _ => Except.ok "T") (fun _ => Except.error (PyErr.valueError "x")) none
    (PyErr.fileNotFound "No such file or directory") rfl
    (JValue.obj [("data", JValue.arr [])]) rfl

/-! ### Splitting a batch back on the chunk separator (Python `str.split`) -/

theorem isPrefixOf_true_iff {l1 l2 : List Char} : l1.isPrefixOf l2 = true ↔ l1 <+: l2 :=
  List.isPrefixOf_iff_prefix

theorem leading_contained {l1 l2 : List Char} (h : l1 <+: l2) : l1 <:+: l2 := by
  obtain ⟨t, ht⟩ := h
  exact ⟨[], t, by simpa using ht⟩

/-- Leftmost occurrence of `sep`: `some (before, after)` when `sep` occurs,
`none` otherwise. -/
def splitFirst (sep : List Char) : List Char → Option (List Char × List Char)
  | [] => none
  | c :: cs =>
    if sep.isPrefixOf (c :: cs) then some ([], List.drop sep.length (c :: cs))
    else
      match splitFirst sep cs with
      | some (pre, post) => some (c :: pre, post)
      | none => none

theorem splitFirst_eq_some (sep : List Char) :
    ∀ s pre post : List Char, splitFirst sep s = some (pre, post) → s = pre ++ sep ++ post
  | [], pre, post => by intro h; simp [splitFirst] at h
  | c :: cs, pre, post => by
      intro h
      rw [splitFirst] at h
      by_cases hp : sep.isPrefixOf (c :: cs)
      · rw [if_pos hp] at h
        cases h
        obtain ⟨t, ht⟩ := isPrefixOf_true_iff.mp hp
        rw [← ht, List.nil_append, List.drop_left]
      · rw [if_neg hp] at h
        cases hsp : splitFirst sep cs with
        | none => rw [hsp] at h; cases h
        | some pq =>
            obtain ⟨p1, p2⟩ := pq
            rw [hsp] at h
            injection h with h2
            injection h2 with h3 h4
            subst h3
            subst h4
            have hcs := splitFirst_eq_some sep cs p1 p2 hsp
            simp [hcs]

theorem splitFirst_none (sep : List Char) :
    ∀ s : List Char, ¬ sep <:+: s → splitFirst sep s = none
  | [] => by intro _; rfl
  | c :: cs => by
      intro hinf
      rw [splitFirst]
      rw [if_neg (fun hp => hinf (leading_contained (isPrefixOf_true_iff.mp hp)))]
      rw [splitFirst_none sep cs (fun hi => hinf (List.infix_cons hi))]

theorem splitFirst_boundary (a : Char) (as : List Char) :
    ∀ p r : List Char, ¬ (a :: as) <:+: (p ++ (a :: as).dropLast) →
      splitFirst (a :: as) (p ++ (a :: as) ++ r) = some (p, r)
  | [], r => by
      intro _
      have hpre : (a :: as).isPrefixOf (a :: (as ++ r)) :=
        isPrefixOf_true_iff.mpr ⟨r, rfl⟩
      show splitFirst (a :: as) (a :: (as ++ r)) = some ([], r)
      rw [splitFirst, if_pos hpre]
      rw [show List.drop (a :: as).length (a :: (as ++ r)) = r from
        List.drop_left (a :: as) r]
  | c :: p, r => by
      intro h
      have hgoal : (c :: p) ++ (a :: as) ++ r = c :: (p ++ ((a :: as) ++ r)) := by simp
      rw [hgoal, splitFirst]
      have hnp : ¬ (a :: as).isPrefixOf (c :: (p ++ ((a :: as) ++ r))) = true := by
        intro hp
        apply h
        have hx : c :: (p ++ ((a :: as) ++ r))
            = ((c :: p) ++ (a :: as).dropLast)
                ++ ((a :: as).getLast (by simp) :: r) := by
          conv_lhs => rw [show (a :: as)
            = (a :: as).dropLast ++ [(a :: as).getLast (by simp)] from
              (List.dropLast_append_getLast (by simp)).symm]
          simp
        have h0 := isPrefixOf_true_iff.mp hp
        rw [hx] at h0
        have hlen : (a :: as).length ≤ ((c :: p) ++ (a :: as).dropLast).length := by
          simp [List.length_dropLast]
        have h1 := List.prefix_iff_eq_take.mp h0
        rw [List.take_append_of_le_length hlen] at h1
        exact leading_contained (List.prefix_iff_eq_take.mpr h1)
      rw [if_neg hnp]
      have hrec := splitFirst_boundary a as p r (fun hi => h (List.infix_cons hi))
      have hshape : p ++ ((a :: as) ++ r) = p ++ (a :: as) ++ r := by simp
      rw [hshape, hrec]

theorem chunkSepL_length_pos : 0 < chunkSepL.length := by decide

/-- Python `s.split(sep)` for the fixed chunk separator, on character lists:
repeatedly split off the text before the leftmost occurrence. -/
def splitOnL (s : List Char) : List (List Char) :=
  match h : splitFirst chunkSepL s with
  | none => [s]
  | some (pre, post) => pre :: splitOnL post
termination_by s.length
decreasing_by
  have he : s = pre ++ chunkSepL ++ post := splitFirst_eq_some chunkSepL s pre post h
  rw [he]
  simp only [List.length_append]
  have := chunkSepL_length_pos
  omega

theorem splitOnL_of_none (s : List Char) (h : splitFirst chunkSepL s = none) :
    splitOnL s = [s] := by
  rw [splitOnL]
  split
  · rfl
  · next pre post heq => rw [h] at heq; cases heq

theorem splitOnL_of_some (s pre post : List Char)
    (h : splitFirst chunkSepL s = some (pre, post)) :
    splitOnL s = pre :: splitOnL post := by
  rw [splitOnL]
  split
  · next heq => rw [h] at heq; cases heq
  · next p1 p2 heq =>
      rw [h] at heq
      cases heq
      rfl

/-- Joining character lists with a separator (the character-list image of
`String.intercalate`). -/
def interL (sep : List Char) : List (List Char) → List Char
  | [] => []
  | [p] => p
  | p :: q :: r => p ++ sep ++ interL sep (q :: r)

theorem splitOnL_interL :
    ∀ parts : List (List Char), parts ≠ [] →
      (∀ p ∈ parts, ¬ chunkSepL <:+: (p ++ chunkSepL.dropLast)) →
      splitOnL (interL chunkSepL parts) = parts
  | [], h, _ => absurd rfl h
  | [p], _, hall => by
      have hnp : ¬ chunkSepL <:+: p := by
        intro hi
        exact hall p (by simp) (hi.trans ⟨[], chunkSepL.dropLast, by simp⟩)
      rw [show interL chunkSepL [p] = p from rfl]
      exact splitOnL_of_none p (splitFirst_none chunkSepL p hnp)
  | p :: q :: r, _, hall => by
      have hp : ¬ chunkSepL <:+: (p ++ chunkSepL.dropLast) := hall p (by simp)
      obtain ⟨a, as, hsep⟩ : ∃ a as, chunkSepL = a :: as := by
        cases hs : chunkSepL with
        | nil => exact absurd hs (by decide)
        | cons a as => exact ⟨a, as, rfl⟩
      rw [show interL chunkSepL (p :: q :: r)
        = p ++ chunkSepL ++ interL chunkSepL (q :: r) from rfl]
      have hp2 : ¬ (a :: as) <:+: (p ++ (a :: as).dropLast) := by
        rw [← hsep]; exact hp
      have hb := splitFirst_boundary a as p (interL chunkSepL (q :: r)) hp2
      rw [← hsep] at hb
      rw [splitOnL_of_some (p ++ chunkSepL ++ interL chunkSepL (q :: r)) p
        (interL chunkSepL (q :: r)) hb]
      congr 1
      exact splitOnL_interL (q :: r) (by simp)
        (fun x hx => hall x (List.mem_cons_of_mem p hx))

theorem interL_go_data (s : String) :
    ∀ (as : List String) (acc : String),
      (String.intercalate.go acc s as).data = interL s.data (List.map String.data (acc :: as))
  | [], _ => rfl
  | b :: bs, acc => by
      show (String.intercalate.go (acc ++ s ++ b) s bs).data = _
      rw [interL_go_data s bs (acc ++ s ++ b)]
      cases bs with
      | nil => simp [interL, String.data_append, List.append_assoc]
      | cons c cs => simp [interL, String.data_append, List.append_assoc]

theorem data_intercalate (s : String) (l : List String) :
    (String.intercalate s l).data = interL s.data (List.map String.data l) := by
  cases l with
  | nil => rfl
  | cons a as => exact interL_go_data s as a

/-- Python `batch.split(chunkSep)` on strings. -/
def splitOnSep (s : String) : List String := (splitOnL s.data).map String.mk

theorem splitOnSep_intercalate (g : List String) (hg : g ≠ [])
    (h : ∀ p ∈ g, ¬ chunkSepL <:+: (p.data ++ chunkSepL.dropLast)) :
    splitOnSep (String.intercalate chunkSep g) = g := by
  unfold splitOnSep
  rw [data_intercalate, show chunkSep.data = chunkSepL from rfl]
  rw [splitOnL_interL (List.map String.data g)
    (by intro hnil; exact hg (by simpa using hnil))
    (by intro p hp
        obtain ⟨x, hx, rfl⟩ := List.mem_map.mp hp
        exact h x hx)]
  rw [List.map_map]
  rw [show String.mk ∘ String.data = id from funext (fun _ => rfl), List.map_id]

set_option maxRecDepth 20000 in
unseal sliceGroups splitOnL in
/-- C5 counterexample: neither chunk contains the separator text, yet
splitting the (single) batch back on the separator does not recover the chunk
list — the first chunk ends with all of the separator except its last newline,
so a separator occurrence straddles the chunk/separator boundary and leftmost
splitting yields three pieces `["", "\n--- (New Chunk in Batch) ---", "z"]`
instead of the two original chunks. -/
theorem group_chunks_roundtrip_cex :
    (¬ chunkSepL <:+: ("\n\n--- (New Chunk in Batch) ---\n" : String).data) ∧
    (¬ chunkSepL <:+: ("--- (New Chunk in Batch) ---\n\nz" : String).data) ∧
    group_chunks ["\n\n--- (New Chunk in Batch) ---\n", "--- (New Chunk in Batch) ---\n\nz"] 7
      = Except.ok [String.intercalate chunkSep
          ["\n\n--- (New Chunk in Batch) ---\n", "--- (New Chunk in Batch) ---\n\nz"]] ∧
    splitOnSep (String.intercalate chunkSep
        ["\n\n--- (New Chunk in Batch) ---\n", "--- (New Chunk in Batch) ---\n\nz"])
      = ["", "\n--- (New Chunk in Batch) ---", "z"] ∧
    splitOnSep (String.intercalate chunkSep
        ["\n\n--- (New Chunk in Batch) ---\n", "--- (New Chunk in Batch) ---\n\nz"])
      ≠ ["\n\n--- (New Chunk in Batch) ---\n", "--- (New Chunk in Batch) ---\n\nz"] := by
  refine ⟨by decide, by decide, rfl, by decide, by decide⟩

/-- C5 (amended): for every chunk list and `batch_size > 0`, `group_chunks`
partitions the input into contiguous groups — all of size `batch_size` except
the final group, which holds between 1 and `batch_size` chunks — and joins
each group with the fixed separator; re-splitting every batch on that
separator and concatenating the pieces recovers the original chunk list,
provided the separator does not occur in any chunk *nor straddling a chunk's
end into the following separator* (no chunk `c` has the separator as an infix
of `c ++ separator-minus-its-last-character`); the bare
no-chunk-contains-the-separator proviso is not enough (see the
counterexample). -/
theorem group_chunks_partition_roundtrip (chunks : List String) (b : Int) (hb : 0 < b)
    (hsep : ∀ c ∈ chunks, ¬ chunkSepL <:+: (c.data ++ chunkSepL.dropLast)) :
    ∃ groups : List (List String),
      group_chunks chunks b = Except.ok (groups.map (String.intercalate chunkSep)) ∧
      groups.flatten = chunks ∧
      (∀ g ∈ groups, 1 ≤ g.length ∧ g.length ≤ b.toNat) ∧
      (∀ g ∈ groups.dropLast, g.length = b.toNat) ∧
      ((groups.map (String.intercalate chunkSep)).map splitOnSep).flatten = chunks := by
  refine ⟨sliceGroups b.toNat chunks, ?_, flatten_sliceGroups _ chunks,
    sliceGroups_sizes _ (by omega) chunks,
    sliceGroups_dropLast_sizes _ (by omega) chunks, ?_⟩
  · rw [group_chunks, if_neg (by omega), if_neg (by omega)]
  · rw [List.map_map]
    have hmap : ∀ g ∈ sliceGroups b.toNat chunks,
        (splitOnSep ∘ String.intercalate chunkSep) g = id g := by
      intro g hg
      have hne : g ≠ [] := by
        have h1 := (sliceGroups_sizes b.toNat (by omega) chunks g hg).1
        intro hnil
        rw [hnil] at h1
        simp at h1
      refine splitOnSep_intercalate g hne ?_
      intro p hp
      apply hsep
      rw [← flatten_sliceGroups b.toNat chunks]
      exact List.mem_flatten.mpr ⟨g, hg, hp⟩
    rw [List.map_congr_left hmap, List.map_id, flatten_sliceGroups]

set_option maxRecDepth 20000 in
/-- C5 witness: three chunks, batch size 2, groups `[["a","b"],["c"]]`; the
straddle-free proviso holds and the round trip recovers the chunks. -/
theorem group_chunks_partition_roundtrip_witness :
    ∃ groups : List (List String),
      group_chunks ["a", "b", "c"] 2 = Except.ok (groups.map (String.intercalate chunkSep)) ∧
      groups.flatten = ["a", "b", "c"] ∧
      (∀ g ∈ groups, 1 ≤ g.length ∧ g.length ≤ (2 : Int).toNat) ∧
      (∀ g ∈ groups.dropLast, g.length = (2 : Int).toNat) ∧
      ((groups.map (String.intercalate chunkSep)).map splitOnSep).flatten = ["a", "b", "c"] :=
  group_chunks_partition_roundtrip ["a", "b", "c"] 2 (by decide) (by decide)

end Summarizer
